import Mathlib

/-!
Verification of the BGP session-protocol engine of exabgp
(`lib/exabgp/bgp/protocol.py`), shallowly embedded in Lean 4.

Modelling conventions:
* Python byte strings are `List Nat` (one entry per byte value).
* Wall-clock time is modelled in whole seconds (`Nat` or `Int`).
* A Python `raise` becomes an `Except` error result; where mutations
  performed before the `raise` must survive it, the mutated state is
  returned alongside the `Except` value.
* The generator functions (`chunked`, `_announce`, `_backlog`) are
  embedded with their yielded values materialised as lists, in yield
  order.
-/

/-- Diagnostic payload of a protocol rejection: the `data` argument of
`Notify(code, subcode, data)` is either omitted, a text diagnostic, or raw
wire bytes echoed back to the peer. -/
inductive NotifyData where
  | noData : NotifyData
  | text : String → NotifyData
  | raw : List Nat → NotifyData
deriving Repr, DecidableEq

/-- A protocol rejection (`Notify` in the source): BGP NOTIFICATION error
code, subcode and optional diagnostic payload. -/
structure Notify where
  code : Nat
  subcode : Nat
  data : NotifyData
deriving Repr, DecidableEq

/-- The fixed 16-byte BGP marker (`Message.MARKER`): sixteen 0xff bytes. -/
def MARKER : List Nat := List.replicate 16 255

/-- Wire type byte of an OPEN message (`Open.TYPE`). -/
def OPEN_TYPE : Nat := 1

/-- Wire type byte of an UPDATE message (`Update.TYPE`). -/
def UPDATE_TYPE : Nat := 2

/-- Wire type byte of a NOTIFICATION message (`Notification.TYPE`). -/
def NOTIFICATION_TYPE : Nat := 3

/-- Wire type byte of a KEEPALIVE message (`KeepAlive.TYPE`). -/
def KEEPALIVE_TYPE : Nat := 4

/-- Error outcome of `read_message`: a fatal transport `Failure`, a local
protocol rejection (`raise Notify(...)`), or a NOTIFICATION received from
the peer (`raise Notification().factory(data)`), carried with its raw
body bytes. -/
inductive ReadErr where
  | failure : String → ReadErr
  | notify : Notify → ReadErr
  | peerClose : List Nat → ReadErr
deriving Repr, DecidableEq

/-- Message value returned by `read_message`. Bodies are kept as raw
bytes: the per-type codecs (`Open().factory`, `Update().factory`) live
outside this file and no claim depends on their internals.
`nopIdle` is the fresh `NOP()` returned when no data is pending;
`nop t` is `NOP().factory(msg)` carrying the raw type byte. -/
inductive Msg where
  | nopIdle : Msg
  | nop : Nat → Msg
  | keepalive : Msg
  | openMsg : List Nat → Msg
  | updateMsg : List Nat → Msg
deriving Repr, DecidableEq

/-- The accumulation read loop of `read_message`: read exactly `n` bytes
from the stream; a zero-length read (stream exhausted before `n` bytes)
is the fatal `The TCP connection is closed` transport failure. Returns
the bytes read and the remaining stream. -/
def readExact (n : Nat) (stream : List Nat) : Except ReadErr (List Nat × List Nat) :=
  if stream.length < n then .error (.failure "The TCP connection is closed")
  else .ok (stream.take n, stream.drop n)

/-- `Protocol.read_message` (lines 105-173): poll for pending data, read
the 19-byte header, validate the marker, the length range, and the
per-type minimum lengths, then read the `length - 19` body bytes and
dispatch on the type byte. `has_routes` abstracts whether
`Update().factory` decodes at least one route from the body (the UPDATE
codec lives outside this file); `parse_routes` is
`neighbor.parse_routes`. -/
def read_message (has_routes : List Nat → Bool) (parse_routes : Bool)
    (pending : Bool) (stream : List Nat) : Except ReadErr Msg :=
  if !pending then .ok .nopIdle
  else match readExact 19 stream with
  | .error e => .error e
  | .ok (data, rest) =>
    if data.take 16 ≠ MARKER then
      .error (.notify ⟨1, 1, .text "The packet received does not contain a BGP marker"⟩)
    else
      let raw_length := (data.drop 16).take 2
      let length := 256 * data.getD 16 0 + data.getD 17 0
      let msg := data.getD 18 0
      if length < 19 ∨ 4096 < length then
        .error (.notify ⟨1, 2, .noData⟩)
      else if (msg = OPEN_TYPE ∧ length < 29) ∨ (msg = UPDATE_TYPE ∧ length < 23) ∨
          (msg = NOTIFICATION_TYPE ∧ length < 21) ∨ (msg = KEEPALIVE_TYPE ∧ length ≠ 19) then
        .error (.notify ⟨1, 2, .raw raw_length⟩)
      else match readExact (length - 19) rest with
      | .error e => .error e
      | .ok (body, _) =>
        if msg = NOTIFICATION_TYPE then .error (.peerClose body)
        else if msg = KEEPALIVE_TYPE then .ok .keepalive
        else if msg = OPEN_TYPE then .ok (.openMsg body)
        else if msg = UPDATE_TYPE ∧ parse_routes ∧ has_routes body then .ok (.updateMsg body)
        else .ok (.nop msg)

/-- The fields of a received OPEN message that `read_open` validates
(`Open` in the source; version and the capability set are consumed by the
negotiation collaborator and are not needed by any claim). The router ID
is the 32-bit value of the dotted quad; `0` is `RouterID('0.0.0.0')`. -/
structure OpenMsg where
  asn : Nat
  router_id : Nat
  hold_time : Nat
deriving Repr, DecidableEq

/-- Modelled from the spec: the negotiated session state (`Negociated`,
whose class lives outside this file) records what was sent and what was
received during the OPEN exchange (spec 4.2: accumulate `sent(open)` and
`received(open)` exactly once each per session). -/
structure Negociated where
  sentOpen : Option OpenMsg
  rcvdOpen : Option OpenMsg
deriving Repr, DecidableEq

/-- Modelled from the spec: `Negociated.received` records the received
OPEN into the negotiated session state. -/
def Negociated.received (n : Negociated) (o : OpenMsg) : Negociated :=
  { n with rcvdOpen := some o }

/-- The read-only neighbor-configuration fields used by the handshake. -/
structure Neighbor where
  peer_as : Nat
  local_as : Nat
  router_id : Nat
  hold_time : Nat
deriving Repr, DecidableEq

/-- The mutable `Protocol` fields touched by `read_open`: the negotiated
session state and the session hold time (`None` until negotiated). -/
structure OpenState where
  negociated : Negociated
  hold_time : Option Nat
deriving Repr, DecidableEq

/-- `Protocol.read_open` (lines 175-206), for the case where the framer
returned an OPEN message (the NOP pass-through and the not-an-OPEN
rejection happen before any state is touched and are not modelled here):
record the message via `negociated.received`, then run the semantic
validations in source order. `asn4_problem` and `neg_peer_as` stand for
`negociated.asn4_problem()` and `negociated.peer_as`, whose definitions
live outside this file (modelled from the spec as the ASN4-mismatch flag
and the effective peer ASN derived from the received OPEN). The state is
returned alongside the result because a `raise` leaves every mutation
performed before it in place. -/
def read_open (nb : Neighbor) (asn4_problem : Bool) (neg_peer_as : Nat)
    (st : OpenState) (message : OpenMsg) : OpenState × Except Notify OpenMsg :=
  let st := { st with negociated := st.negociated.received message }
  if asn4_problem then
    (st, .error ⟨2, 0, .text "We have an ASN4 and you do not speak it. bye."⟩)
  else if neg_peer_as ≠ nb.peer_as then
    (st, .error ⟨2, 2, .text ("ASN in OPEN (" ++ toString message.asn ++
      ") did not match ASN expected (" ++ toString nb.peer_as ++ ")")⟩)
  else if message.router_id = 0 then
    (st, .error ⟨2, 3, .text "0.0.0.0 is an invalid router_id according to RFC6286"⟩)
  else if message.router_id = nb.router_id ∧ message.asn = nb.local_as then
    (st, .error ⟨2, 3, .text ("BGP Indendifier collision (" ++
      toString message.router_id ++ ") on IBGP according to RFC 6286")⟩)
  else if message.hold_time < 3 then
    (st, .error ⟨2, 6, .text ("Hold Time is invalid (" ++ toString message.hold_time ++ ")")⟩)
  else
    let st := if 3 ≤ message.hold_time then
      { st with hold_time := some (min nb.hold_time message.hold_time) } else st
    (st, .ok message)

/-- The (code, subcode) pair of the rejection raised by a handshake
step, if any. -/
def errCodes : Except Notify OpenMsg → Option (Nat × Nat)
  | .error e => some (e.code, e.subcode)
  | .ok _ => none

/-- `Protocol.check_keepalive` (lines 81-85), with time in whole seconds:
`left = last_read + hold_time - now`; non-positive `left` is the
hold-timer-expired rejection. -/
def check_keepalive (last_read hold_time now : Int) : Except Notify Int :=
  let left := last_read + hold_time - now
  if left ≤ 0 then .error ⟨4, 0, .noData⟩ else .ok left

/-- Concatenation of a list of byte strings (Python `''.join` order). -/
def concatBytes (l : List (List Nat)) : List Nat :=
  l.foldr (· ++ ·) []

/-- The loop of the inner generator `chunked(generator, size)` of
`Protocol._announce` (lines 295-309): `chunk` and `number` are the running
accumulator (bytes gathered so far and how many fragments they fold). A
fragment wider than `size` raises the fatal `Failure`; a fragment that
fits is appended; one that would overflow flushes the running chunk and
starts a new one; a non-empty final chunk is flushed at sequence end. -/
def chunkedGo (size : Nat) (chunk : List Nat) (number : Nat) :
    List (List Nat) → Except String (List (Nat × List Nat))
  | [] => if chunk = [] then .ok [] else .ok [(number, chunk)]
  | data :: rest =>
    if size < data.length then
      .error ("Can not send BGP update larger than " ++ toString size ++
        " bytes on this connection.")
    else if chunk.length + data.length ≤ size then
      chunkedGo size (chunk ++ data) (number + 1) rest
    else
      match chunkedGo size data 1 rest with
      | .error e => .error e
      | .ok tail => .ok ((number, chunk) :: tail)

/-- `chunked(generator, size)` with the generator materialised as a list
of fragments and the yielded `(count, chunk)` pairs materialised in yield
order. -/
def chunked (generator : List (List Nat)) (size : Nat) :
    Except String (List (Nat × List Nat)) :=
  chunkedGo size [] 0 generator

/-- The empty-backlog branch of `Protocol._announce` (lines 318-332):
attempt direct writes in order; the first failed write clears `sending`
for the rest of the call, after which every chunk (including the failed
one) is appended to the backlog — but only the chunks deferred after the
failure yield a `0`. `writeRes i` is the outcome of the `i`-th
`connection.write` attempt of the call; the `Bool` argument is `sending`.
Returns (yielded numbers in order, entries appended to the backlog in
order). -/
def announceDirect (writeRes : Nat → Bool) :
    Nat → Bool → List (Nat × List Nat) → List Nat × List (Nat × List Nat)
  | _, _, [] => ([], [])
  | i, true, (n, u) :: rest =>
    if writeRes i then
      let r := announceDirect writeRes (i + 1) true rest
      (n :: r.1, r.2)
    else
      let r := announceDirect writeRes (i + 1) false rest
      (r.1, (n, u) :: r.2)
  | i, false, (n, u) :: rest =>
    let r := announceDirect writeRes i false rest
    (0 :: r.1, (n, u) :: r.2)

/-- `MAX_BACKLOG` (line 34): the number of chunked messages the engine is
willing to buffer. -/
def MAX_BACKLOG : Nat := 15000

/-- The mutable `Protocol` fields shared by `_backlog`, `_announce` and
`new_keepalive`: the backlog `self._messages` of
(count, kind name, wire bytes) entries, and the stall clock
`self._frozen`, a timestamp in whole seconds where `0` is Python-falsy
"unset". -/
structure BState where
  messages : List (Nat × String × List Nat)
  frozen : Nat
deriving Repr, DecidableEq

/-- The drain loop of `Protocol._backlog` (lines 285-292): pop entries
from the head while each head write succeeds (each pop also sets
`_frozen = 0`); the first failed write breaks out with no partial
removal. `writeRes i` is the outcome of the `i`-th write attempt of this
call. Returns (yielded counts, remaining entries, whether at least one
entry was popped — i.e. whether `_frozen` was set to `0`). -/
def drainLoop (writeRes : Nat → Bool) :
    Nat → List (Nat × String × List Nat) →
    List Nat × List (Nat × String × List Nat) × Bool
  | _, [] => ([], [], false)
  | i, e :: rest =>
    if writeRes i then
      let r := drainLoop writeRes (i + 1) rest
      (e.1 :: r.1, r.2.1, true)
    else ([], e :: rest, false)

/-- The stall-clock bookkeeping at the top of `Protocol._backlog`
(lines 276-277): when the backlog is non-empty and `self._frozen` is
unset, it is set to `time.time()` (`now`, in whole seconds); otherwise
it keeps its value. -/
def stallClock (now : Nat) (st : BState) : Nat :=
  if st.messages.isEmpty then st.frozen
  else if st.frozen = 0 then now else st.frozen

/-- `Protocol._backlog` (lines 273-292) with the generator fully
consumed: when the backlog is non-empty, the stall clock is set if
unset (`stallClock`), the call fails fatally if the stall has outlived
`hold` seconds, and fails fatally if the backlog holds more than
`MAX_BACKLOG` entries; then the drain loop runs. Returns the yielded
counts and the updated state, or the fatal `Failure` text. -/
def backlogDrain (writeRes : Nat → Bool) (now hold : Nat) (st : BState) :
    Except String (List Nat × BState) :=
  if ¬ st.messages.isEmpty ∧ stallClock now st ≠ 0 ∧ stallClock now st + hold < now then
    .error "peer not reading on socket - killing session"
  else if ¬ st.messages.isEmpty ∧ MAX_BACKLOG < st.messages.length then
    .error ("over " ++ toString MAX_BACKLOG ++
      " chunked routes buffered for peer - killing session")
  else
    let r := drainLoop writeRes 0 st.messages
    .ok (r.1, ⟨r.2.1, if r.2.2 then 0 else stallClock now st⟩)

/-- The KEEPALIVE wire message `KeepAlive().message()`. Modelled from the
spec: the codec lives outside this file; spec 6 fixes the format as the
16-byte marker, big-endian length 19, type byte 4, empty body. -/
def keepaliveBytes : List Nat := List.replicate 16 255 ++ [0, 19, 4]

/-- Python truthiness of the tri-state `force` argument of
`new_keepalive` (`None` / `True` / `False`): only `True` is truthy. -/
def forceTruthy : Option Bool → Bool
  | some true => true
  | _ => false

/-- Everything `Protocol.new_keepalive` produces: its return value
`(left, k-or-None)` (`sent = true` when the KEEPALIVE value `k` is
returned, `false` for `None`), the updated backlog/stall state, the log
lines emitted, and the byte strings handed to `connection.write`. -/
structure KAResult where
  left : Int
  sent : Bool
  st : BState
  logs : List String
  writeAttempts : List (List Nat)
deriving Repr, DecidableEq

/-- `Protocol.new_keepalive` (lines 236-261), with time in whole seconds:
`left = last_write + ka_interval - now` where `ka_interval` is
`hold_time.keepalive()` (one third of the hold time, computed outside
this file); `writeOk` is the outcome of `connection.write` if attempted.
A truthy `force` always attempts the send; otherwise the send is
attempted only when the timer has expired (`left ≤ 0`); a failed write
buffers the KEEPALIVE onto the backlog; a successful write resets the
stall clock. -/
def new_keepalive (writeOk : Bool) (last_write ka_interval now : Int)
    (force : Option Bool) (st : BState) : KAResult :=
  let left := last_write + ka_interval - now
  if forceTruthy force then
    if writeOk = false then
      ⟨left, true, { st with messages := st.messages ++ [(1, "KEEPALIVE", keepaliveBytes)] },
        ["|| buffer not yet empty, adding KEEPALIVE to it"], [keepaliveBytes]⟩
    else
      ⟨left, true, { st with frozen := 0 },
        if force = some true then [">> KEEPALIVE (OPENCONFIRM)"]
        else if force = some false then [">> KEEPALIVE (no more UPDATE and no EOR)"]
        else [], [keepaliveBytes]⟩
  else if left ≤ 0 then
    if writeOk = false then
      ⟨left, true, { st with messages := st.messages ++ [(1, "KEEPALIVE", keepaliveBytes)] },
        ["|| could not send KEEPALIVE, buffering"], [keepaliveBytes]⟩
    else
      ⟨left, true, { st with frozen := 0 }, [">> KEEPALIVE"], [keepaliveBytes]⟩
  else ⟨left, false, st, [], []⟩

/-! ## Claim theorems -/

/-- C8: `check_keepalive` raises the hold-timer-expired rejection
`Notify(4,0)` exactly when `last_read + hold_time ≤ now`, and otherwise
returns the positive number of seconds remaining before expiry. -/
theorem check_keepalive_spec (last_read hold_time now : Int) :
    (check_keepalive last_read hold_time now = .error ⟨4, 0, .noData⟩ ↔
      last_read + hold_time ≤ now) ∧
    (now < last_read + hold_time →
      check_keepalive last_read hold_time now = .ok (last_read + hold_time - now) ∧
      0 < last_read + hold_time - now) := by
  unfold check_keepalive
  constructor
  · constructor
    · intro h
      by_cases hc : last_read + hold_time - now ≤ 0
      · omega
      · simp [hc] at h
    · intro h
      have hc : last_read + hold_time - now ≤ 0 := by omega
      simp [hc]
  · intro h
    have hc : ¬ last_read + hold_time - now ≤ 0 := by omega
    refine ⟨by simp [hc], by omega⟩

/-- Witness for C8: with `last_read = 0`, `hold_time = 30`, `now = 10`
the hold timer has not expired and 20 seconds remain. -/
theorem check_keepalive_spec_witness :
    check_keepalive 0 30 10 = .ok (0 + 30 - 10) ∧ (0 : Int) < 0 + 30 - 10 :=
  (check_keepalive_spec 0 30 10).2 (by norm_num)

/-- C10: `new_keepalive` with `force = False` behaves exactly like
`force = None`: Python truthiness sends `False` down the timer-gated
path, so the writes attempted, the buffering, the logs and the return
value all coincide, and the `force == False` logging arm is
unreachable. -/
theorem new_keepalive_force_false_eq_none (writeOk : Bool)
    (last_write ka_interval now : Int) (st : BState) :
    new_keepalive writeOk last_write ka_interval now (some false) st =
      new_keepalive writeOk last_write ka_interval now none st := rfl

/-- C6: whenever the backlog holds strictly more than `MAX_BACKLOG`
(15000) entries, the next `_backlog` invocation raises a fatal `Failure`
before removing any entry, whatever the stall clock, the current time
and the hold time are. -/
theorem backlog_over_ceiling_fails (writeRes : Nat → Bool) (now hold : Nat)
    (st : BState) (h : MAX_BACKLOG < st.messages.length) :
    ∃ e, backlogDrain writeRes now hold st = .error e := by
  have hne : st.messages.isEmpty = false := by
    cases hm : st.messages with
    | nil => rw [hm] at h; simp [MAX_BACKLOG] at h
    | cons a l => simp
  unfold backlogDrain
  split
  · exact ⟨_, rfl⟩
  · split
    · exact ⟨_, rfl⟩
    · rename_i h1 h2
      exact absurd ⟨by simp [hne], h⟩ h2

/-- Witness for C6: a backlog of 15001 entries fails fatally even with a
freshly unset stall clock. -/
theorem backlog_over_ceiling_fails_witness :
    ∃ e, backlogDrain (fun _ => true) 0 0
      ⟨List.replicate 15001 (1, "UPDATE", []), 0⟩ = .error e :=
  backlog_over_ceiling_fails _ _ _ _
    (by simp only [List.length_replicate, MAX_BACKLOG]; norm_num)

/-- Auxiliary: the drain loop reports a pop (and hence a `_frozen = 0`
assignment) exactly when it yielded at least one count. -/
lemma drainLoop_popped (writeRes : Nat → Bool) (i : Nat)
    (l : List (Nat × String × List Nat)) :
    (drainLoop writeRes i l).2.2 = !(drainLoop writeRes i l).1.isEmpty := by
  cases l with
  | nil => rfl
  | cons e rest =>
    unfold drainLoop
    by_cases hw : writeRes i = true
    · simp [hw]
    · simp [hw]

/-- C7 counterexample: with backlog `[a, b]` and stall clock `5`, a drain
whose first write succeeds and whose second fails leaves the backlog
non-empty but resets the stall clock to `0` (unset) — the clock does not
keep its original value while the backlog stays non-empty. -/
theorem backlog_partial_drain_resets_clock_cex :
    backlogDrain (fun i => i == 0) 6 10 ⟨[(1, "a", [1]), (1, "b", [2])], 5⟩ =
      .ok ([1], ⟨[(1, "b", [2])], 0⟩) ∧
    (0 : Nat) ≠ 5 ∧
    ([(1, "b", [2])] : List (Nat × String × List Nat)) ≠ [] :=
  ⟨rfl, by decide, by decide⟩

/-- C7 (amended): the stall clock is set at drain entry when the backlog
is non-empty and the clock unset, but it is reset to unset by *every*
successful head write — even when the backlog remains non-empty — so a
drain that pops at least one entry always leaves the clock unset, and a
drain that pops nothing leaves it at `stallClock` (set-if-unset). -/
theorem stall_clock_reset_on_any_pop (writeRes : Nat → Bool) (now hold : Nat)
    (st : BState) (ys : List Nat) (st' : BState)
    (h : backlogDrain writeRes now hold st = .ok (ys, st')) :
    (ys ≠ [] → st'.frozen = 0) ∧
    (ys = [] → st'.frozen = stallClock now st) := by
  unfold backlogDrain at h
  split at h
  · exact absurd h (by simp)
  · split at h
    · exact absurd h (by simp)
    · rw [Except.ok.injEq, Prod.mk.injEq] at h
      obtain ⟨h1, h2⟩ := h
      subst h1
      subst h2
      have hp := drainLoop_popped writeRes 0 st.messages
      constructor
      · intro hne
        have : (drainLoop writeRes 0 st.messages).1.isEmpty = false := by
          cases hl : (drainLoop writeRes 0 st.messages).1 with
          | nil => exact absurd hl hne
          | cons a l => simp
        simp [hp, this]
      · intro hnil
        have : (drainLoop writeRes 0 st.messages).1.isEmpty = true := by
          simp [hnil]
        simp [hp, this]

/-- Witness for C7 (amended): a drain that pops one of two entries
leaves the stall clock unset. -/
theorem stall_clock_reset_on_any_pop_witness :
    (⟨[(2, "UPDATE", [4])], 0⟩ : BState).frozen = 0 :=
  (stall_clock_reset_on_any_pop (fun i => i == 0) 8 10
    ⟨[(2, "UPDATE", [3]), (2, "UPDATE", [4])], 6⟩ [2]
    ⟨[(2, "UPDATE", [4])], 0⟩ rfl).1 (by decide)

/-- C2 counterexample: a header with a valid marker and length field
`0x0000` (outside `[19, 4096]`) is rejected with `Notify(1,2)` whose
payload is empty — the raw two length bytes are *not* echoed. -/
theorem read_message_bad_length_no_echo_cex :
    read_message (fun _ => false) false true (MARKER ++ [0, 0, 1]) =
      .error (.notify ⟨1, 2, .noData⟩) ∧
    NotifyData.noData ≠ NotifyData.raw [0, 0] :=
  ⟨rfl, by decide⟩

/-- C2 (amended): for every valid-marker header whose 2-byte big-endian
length field `L` is outside `[19, 4096]`, `read_message` raises the
bad-length rejection `Notify(1,2)` before attempting any body read (the
result is the same for every continuation `rest` of the stream, even an
empty one), and the rejection carries no payload. -/
theorem read_message_bad_length_reject (has_routes : List Nat → Bool)
    (parse_routes : Bool) (hdr rest : List Nat) (L : Nat)
    (hlen : hdr.length = 19) (hmark : hdr.take 16 = MARKER)
    (hL : L = 256 * hdr.getD 16 0 + hdr.getD 17 0)
    (hout : L < 19 ∨ 4096 < L) :
    read_message has_routes parse_routes true (hdr ++ rest) =
      .error (.notify ⟨1, 2, .noData⟩) := by
  subst hL
  have hst : ¬ hdr.length + rest.length < 19 := by omega
  simp only [List.getD_eq_getElem?_getD] at hout
  simp [read_message, readExact, hst, List.take_left' hlen, List.drop_left' hlen,
    hmark, hout]

/-- Witness for C2 (amended): length `0` with a KEEPALIVE type byte and
an empty continuation. -/
theorem read_message_bad_length_reject_witness :
    read_message (fun _ => true) true true (MARKER ++ [0, 0, 4] ++ []) =
      .error (.notify ⟨1, 2, .noData⟩) :=
  read_message_bad_length_reject (fun _ => true) true (MARKER ++ [0, 0, 4]) [] 0
    (by decide) (by decide) (by decide) (by decide)

/-- C3 counterexample: an OPEN-type header with length field `18`
violates the per-type minimum (`OPEN < 29`), but the length-range check
fires first and its `Notify(1,2)` carries no payload — the raw length
bytes are not echoed for this type/length combination. -/
theorem read_message_type_minlen_out_of_range_cex :
    read_message (fun _ => false) false true (MARKER ++ [0, 18, 1]) =
      .error (.notify ⟨1, 2, .noData⟩) ∧
    NotifyData.noData ≠ NotifyData.raw [0, 18] :=
  ⟨rfl, by decide⟩

/-- C3 (amended): for every valid-marker header whose length `L` lies
within `[19, 4096]` and whose type/length combination violates a
per-type minimum (OPEN with `L < 29`, UPDATE with `L < 23`, NOTIFICATION
with `L < 21`, KEEPALIVE with `L ≠ 19`), `read_message` raises
`Notify(1,2)` whose payload is exactly the raw two length bytes taken
verbatim from the header; lengths outside `[19, 4096]` instead hit the
earlier range check, which carries no payload. -/
theorem read_message_type_minlen_echo (has_routes : List Nat → Bool)
    (parse_routes : Bool) (hdr rest : List Nat) (L : Nat)
    (hlen : hdr.length = 19) (hmark : hdr.take 16 = MARKER)
    (hL : L = 256 * hdr.getD 16 0 + hdr.getD 17 0)
    (hin : 19 ≤ L ∧ L ≤ 4096)
    (hviol : (hdr.getD 18 0 = OPEN_TYPE ∧ L < 29) ∨
      (hdr.getD 18 0 = UPDATE_TYPE ∧ L < 23) ∨
      (hdr.getD 18 0 = NOTIFICATION_TYPE ∧ L < 21) ∨
      (hdr.getD 18 0 = KEEPALIVE_TYPE ∧ L ≠ 19)) :
    read_message has_routes parse_routes true (hdr ++ rest) =
      .error (.notify ⟨1, 2, .raw ((hdr.drop 16).take 2)⟩) := by
  subst hL
  have hst : ¬ hdr.length + rest.length < 19 := by omega
  have hnrange : ¬ (256 * hdr.getD 16 0 + hdr.getD 17 0 < 19 ∨
      4096 < 256 * hdr.getD 16 0 + hdr.getD 17 0) := by omega
  simp only [List.getD_eq_getElem?_getD] at hnrange hviol
  simp [read_message, readExact, hst, List.take_left' hlen, List.drop_left' hlen,
    hmark, hnrange, hviol]

/-- Witness for C3 (amended): an OPEN header announcing total length 20
(`< 29`) is rejected with the raw bytes `[0, 20]` echoed. -/
theorem read_message_type_minlen_echo_witness :
    read_message (fun _ => true) true true (MARKER ++ [0, 20, 1] ++ [0]) =
      .error (.notify ⟨1, 2, .raw (((MARKER ++ [0, 20, 1]).drop 16).take 2)⟩) :=
  read_message_type_minlen_echo (fun _ => true) true (MARKER ++ [0, 20, 1]) [0] 20
    (by decide) (by decide) (by decide) (by decide) (by decide)

/-- C1: for every OPEN message handed to `read_open`, the semantic
validations are applied in this exact order with these exact
rejections: ASN4 mismatch raises `Notify(2,0)`; then an effective peer
ASN different from the configured expected peer ASN raises
`Notify(2,2)`; then router ID `0.0.0.0` raises `Notify(2,3)`; then
router ID equal to the local router ID together with an advertised ASN
equal to the local ASN raises `Notify(2,3)`; then an advertised hold
time `< 3` raises `Notify(2,6)`; and if none fire, the session hold
time is set to the minimum of the configured local hold time and the
peer-advertised hold time and the OPEN is returned. -/
theorem read_open_validation_order (nb : Neighbor) (asn4_problem : Bool)
    (neg_peer_as : Nat) (st : OpenState) (message : OpenMsg) :
    (asn4_problem = true →
      errCodes (read_open nb asn4_problem neg_peer_as st message).2 = some (2, 0)) ∧
    (asn4_problem = false → neg_peer_as ≠ nb.peer_as →
      errCodes (read_open nb asn4_problem neg_peer_as st message).2 = some (2, 2)) ∧
    (asn4_problem = false → neg_peer_as = nb.peer_as → message.router_id = 0 →
      errCodes (read_open nb asn4_problem neg_peer_as st message).2 = some (2, 3)) ∧
    (asn4_problem = false → neg_peer_as = nb.peer_as → message.router_id ≠ 0 →
      message.router_id = nb.router_id → message.asn = nb.local_as →
      errCodes (read_open nb asn4_problem neg_peer_as st message).2 = some (2, 3)) ∧
    (asn4_problem = false → neg_peer_as = nb.peer_as → message.router_id ≠ 0 →
      ¬ (message.router_id = nb.router_id ∧ message.asn = nb.local_as) →
      message.hold_time < 3 →
      errCodes (read_open nb asn4_problem neg_peer_as st message).2 = some (2, 6)) ∧
    (asn4_problem = false → neg_peer_as = nb.peer_as → message.router_id ≠ 0 →
      ¬ (message.router_id = nb.router_id ∧ message.asn = nb.local_as) →
      3 ≤ message.hold_time →
      (read_open nb asn4_problem neg_peer_as st message).2 = .ok message ∧
      (read_open nb asn4_problem neg_peer_as st message).1.hold_time =
        some (min nb.hold_time message.hold_time)) := by
  refine ⟨?_, ?_, ?_, ?_, ?_, ?_⟩
  · intro h1
    simp [read_open, errCodes, h1]
  · intro h1 h2
    simp [read_open, errCodes, h1, h2]
  · intro h1 h2 h3
    simp [read_open, errCodes, h1, h2, h3]
  · intro h1 h2 h3 h4 h5
    have h3' : nb.router_id ≠ 0 := h4 ▸ h3
    simp [read_open, errCodes, h1, h2, h3, h3', h4, h5]
  · intro h1 h2 h3 h4 h5
    simp [read_open, errCodes, h1, h2, h3, h4, h5]
  · intro h1 h2 h3 h4 h5
    have h6 : ¬ message.hold_time < 3 := by omega
    simp [read_open, errCodes, h1, h2, h3, h4, h5, h6]

/-- Witness for C1: peer ASN 65001 matches, router ID 7 is neither zero
nor colliding, hold time 90 is acceptable: the OPEN is accepted and the
session hold time becomes `min 180 90`. -/
theorem read_open_validation_order_witness :
    (read_open ⟨65001, 65000, 42, 180⟩ false 65001 ⟨⟨none, none⟩, none⟩
        ⟨65001, 7, 90⟩).2 = .ok ⟨65001, 7, 90⟩ ∧
    (read_open ⟨65001, 65000, 42, 180⟩ false 65001 ⟨⟨none, none⟩, none⟩
        ⟨65001, 7, 90⟩).1.hold_time = some (min 180 90) :=
  (read_open_validation_order ⟨65001, 65000, 42, 180⟩ false 65001
    ⟨⟨none, none⟩, none⟩ ⟨65001, 7, 90⟩).2.2.2.2.2 rfl rfl
    (by decide) (by decide) (by decide)

/-- C9: `read_open` records the received OPEN into the negotiated
session state before any semantic validation, so the negotiated state
already holds a rejected OPEN when a rejection is raised (no rollback),
while the session hold time is assigned only on the fully successful
path. -/
theorem read_open_records_before_validation (nb : Neighbor)
    (asn4_problem : Bool) (neg_peer_as : Nat) (st : OpenState)
    (message : OpenMsg) :
    (read_open nb asn4_problem neg_peer_as st message).1.negociated.rcvdOpen =
      some message ∧
    (∀ e, (read_open nb asn4_problem neg_peer_as st message).2 = .error e →
      (read_open nb asn4_problem neg_peer_as st message).1.hold_time =
        st.hold_time) ∧
    (∀ m, (read_open nb asn4_problem neg_peer_as st message).2 = .ok m →
      (read_open nb asn4_problem neg_peer_as st message).1.hold_time =
        some (min nb.hold_time message.hold_time)) := by
  unfold read_open
  repeat' split
  all_goals simp [Negociated.received]
  all_goals omega

/-- Witness for C9: an ASN4-mismatch rejection still leaves the rejected
OPEN recorded in the negotiated state, and the hold time untouched. -/
theorem read_open_records_before_validation_witness :
    (read_open ⟨65001, 65000, 42, 180⟩ true 65001 ⟨⟨none, none⟩, none⟩
        ⟨65001, 7, 90⟩).1.negociated.rcvdOpen = some ⟨65001, 7, 90⟩ ∧
    (read_open ⟨65001, 65000, 42, 180⟩ true 65001 ⟨⟨none, none⟩, none⟩
        ⟨65001, 7, 90⟩).1.hold_time = none :=
  ⟨(read_open_records_before_validation ⟨65001, 65000, 42, 180⟩ true 65001
      ⟨⟨none, none⟩, none⟩ ⟨65001, 7, 90⟩).1,
   (read_open_records_before_validation ⟨65001, 65000, 42, 180⟩ true 65001
      ⟨⟨none, none⟩, none⟩ ⟨65001, 7, 90⟩).2.1
     ⟨2, 0, .text "We have an ASN4 and you do not speak it. bye."⟩ rfl⟩

/-- `concatBytes` on the empty list. -/
@[simp] lemma concatBytes_nil : concatBytes [] = [] := rfl

/-- `concatBytes` on a cons. -/
@[simp] lemma concatBytes_cons (a : List Nat) (l : List (List Nat)) :
    concatBytes (a :: l) = a ++ concatBytes l := rfl

/-- Auxiliary for C4: when every fragment fits in `size`, the chunking
loop succeeds, its chunks concatenate to the pending chunk followed by
the fragments, and every emitted chunk stays within `size`. -/
lemma chunkedGo_ok_spec (size : Nat) (frags : List (List Nat)) :
    ∀ (chunk : List Nat) (number : Nat),
    chunk.length ≤ size → (∀ d ∈ frags, d.length ≤ size) →
    ∃ cs, chunkedGo size chunk number frags = .ok cs ∧
      concatBytes (cs.map Prod.snd) = chunk ++ concatBytes frags ∧
      ∀ c ∈ cs, c.2.length ≤ size := by
  induction frags with
  | nil =>
    intro chunk number hc _
    by_cases he : chunk = []
    · exact ⟨[], by simp [chunkedGo, he], by simp [he], by simp⟩
    · refine ⟨[(number, chunk)], by simp [chunkedGo, he], by simp, ?_⟩
      intro c hcm
      simp at hcm
      simp [hcm, hc]
  | cons d rest ih =>
    intro chunk number hc hall
    have hd : d.length ≤ size := hall d (by simp)
    have hrest : ∀ x ∈ rest, x.length ≤ size := fun x hx => hall x (by simp [hx])
    have hover : ¬ size < d.length := by omega
    by_cases hfit : chunk.length + d.length ≤ size
    · obtain ⟨cs, h1, h2, h3⟩ := ih (chunk ++ d) (number + 1)
        (by simp; omega) hrest
      exact ⟨cs, by simp [chunkedGo, hover, hfit, h1],
        by simp [h2, List.append_assoc], h3⟩
    · obtain ⟨tail, h1, h2, h3⟩ := ih d 1 hd hrest
      refine ⟨(number, chunk) :: tail, by simp [chunkedGo, hover, hfit, h1], ?_, ?_⟩
      · simp [h2]
      · intro c hcm
        rcases List.mem_cons.mp hcm with hcm | hcm
        · simp [hcm, hc]
        · exact h3 c hcm

/-- Auxiliary for C4: a fragment wider than `size` anywhere in the
remaining sequence makes the chunking loop raise the fatal `Failure`. -/
lemma chunkedGo_oversize (size : Nat) (frags : List (List Nat)) :
    ∀ (chunk : List Nat) (number : Nat),
    (∃ d ∈ frags, size < d.length) →
    ∃ e, chunkedGo size chunk number frags = .error e := by
  induction frags with
  | nil => intro chunk number h; simp at h
  | cons d rest ih =>
    intro chunk number h
    by_cases hover : size < d.length
    · exact ⟨"Can not send BGP update larger than " ++ toString size ++
        " bytes on this connection.", by simp [chunkedGo, hover]⟩
    · obtain ⟨x, hx, hxl⟩ := h
      rcases List.mem_cons.mp hx with rfl | hx'
      · exact absurd hxl hover
      · by_cases hfit : chunk.length + d.length ≤ size
        · obtain ⟨e, he⟩ := ih (chunk ++ d) (number + 1) ⟨x, hx', hxl⟩
          exact ⟨e, by simp [chunkedGo, hover, hfit, he]⟩
        · obtain ⟨e, he⟩ := ih d 1 ⟨x, hx', hxl⟩
          exact ⟨e, by simp [chunkedGo, hover, hfit, he]⟩

/-- C4: for every fragment sequence in which each fragment is at most
the maximum chunk size, the chunking step of `_announce` yields chunks
whose byte concatenation in yield order equals the concatenation of the
input fragments in original order, with every yielded chunk at most the
maximum size; and a fragment strictly larger than the maximum raises
the fatal `Failure`. -/
theorem chunked_concat_preserved (generator : List (List Nat)) (size : Nat) :
    ((∀ d ∈ generator, d.length ≤ size) →
      ∃ cs, chunked generator size = .ok cs ∧
        concatBytes (cs.map Prod.snd) = concatBytes generator ∧
        ∀ c ∈ cs, c.2.length ≤ size) ∧
    ((∃ d ∈ generator, size < d.length) →
      ∃ e, chunked generator size = .error e) := by
  constructor
  · intro hall
    obtain ⟨cs, h1, h2, h3⟩ := chunkedGo_ok_spec size generator [] 0 (by simp) hall
    exact ⟨cs, h1, by simpa using h2, h3⟩
  · intro h
    exact chunkedGo_oversize size generator [] 0 h

/-- Witness for C4: three fragments chunked at size 3 reproduce their
concatenation, and an oversized fragment fails. -/
theorem chunked_concat_preserved_witness :
    (∃ cs, chunked [[1], [2, 3], [4]] 3 = .ok cs ∧
      concatBytes (cs.map Prod.snd) = concatBytes [[1], [2, 3], [4]] ∧
      ∀ c ∈ cs, c.2.length ≤ 3) ∧
    (∃ e, chunked [[1, 2, 3, 4]] 3 = .error e) :=
  ⟨(chunked_concat_preserved [[1], [2, 3], [4]] 3).1 (by decide),
   (chunked_concat_preserved [[1, 2, 3, 4]] 3).2 ⟨[1, 2, 3, 4], by decide, by decide⟩⟩

/-- Auxiliary for C5: every `(count, chunk)` pair the chunking loop
emits carries a positive count, provided the pending chunk's count is
positive whenever the pending chunk is non-empty. -/
lemma chunkedGo_counts_pos (size : Nat) (frags : List (List Nat)) :
    ∀ (chunk : List Nat) (number : Nat) (cs : List (Nat × List Nat)),
    (chunk ≠ [] → 0 < number) →
    chunkedGo size chunk number frags = .ok cs →
    ∀ c ∈ cs, 0 < c.1 := by
  induction frags with
  | nil =>
    intro chunk number cs hinv h
    by_cases he : chunk = []
    · simp [chunkedGo, he] at h
      simp [h]
    · simp [chunkedGo, he] at h
      intro c hcm
      rw [← h] at hcm
      simp at hcm
      simp [hcm]
      exact hinv he
  | cons d rest ih =>
    intro chunk number cs hinv h
    by_cases hover : size < d.length
    · simp [chunkedGo, hover] at h
    · by_cases hfit : chunk.length + d.length ≤ size
      · rw [chunkedGo, if_neg hover, if_pos hfit] at h
        exact ih (chunk ++ d) (number + 1) cs (fun _ => by omega) h
      · rw [chunkedGo, if_neg hover, if_neg hfit] at h
        cases htail : chunkedGo size d 1 rest with
        | error e => rw [htail] at h; simp at h
        | ok tail =>
          rw [htail] at h
          simp at h
          intro c hcm
          rw [← h] at hcm
          rcases List.mem_cons.mp hcm with rfl | hmem
          · have hne : chunk ≠ [] := by
              intro hc0
              rw [hc0] at hfit
              simp at hfit
              omega
            exact hinv hne
          · exact ih d 1 tail (fun _ => by omega) htail c hmem

/-- Auxiliary for C5: once `sending` is false, `_announce` appends every
remaining chunk to the backlog and yields a `0` for each of them. -/
lemma announceDirect_deferAll (writeRes : Nat → Bool) :
    ∀ (chunks : List (Nat × List Nat)) (i : Nat),
    announceDirect writeRes i false chunks =
      (List.replicate chunks.length 0, chunks) := by
  intro chunks
  induction chunks with
  | nil => intro i; rfl
  | cons c rest ih =>
    obtain ⟨n, u⟩ := c
    intro i
    simp [announceDirect, ih, List.replicate_succ]

/-- Auxiliary for C5: when the first `k` writes succeed and the
`(k+1)`-th fails, `_announce` yields the counts of the first `k` chunks,
then one `0` per chunk strictly after the failed one (the failed chunk
itself yields nothing), and appends the failed chunk and everything
after it to the backlog. -/
lemma announceDirect_firstFail (writeRes : Nat → Bool) :
    ∀ (k : Nat) (chunks : List (Nat × List Nat)) (j : Nat),
    k < chunks.length →
    (∀ i, i < k → writeRes (j + i) = true) →
    writeRes (j + k) = false →
    announceDirect writeRes j true chunks =
      ((chunks.take k).map Prod.fst ++ List.replicate (chunks.length - (k + 1)) 0,
        chunks.drop k) := by
  intro k
  induction k with
  | zero =>
    intro chunks j hk _ hfail
    cases chunks with
    | nil => simp at hk
    | cons c rest =>
      obtain ⟨n, u⟩ := c
      rw [Nat.add_zero] at hfail
      rw [announceDirect, if_neg (by simp [hfail]), announceDirect_deferAll]
      simp
  | succ k ih =>
    intro chunks j hk hsucc hfail
    cases chunks with
    | nil => simp at hk
    | cons c rest =>
      obtain ⟨n, u⟩ := c
      have hw : writeRes j = true := by
        have h0 := hsucc 0 (by omega)
        simpa using h0
      have hsucc' : ∀ i, i < k → writeRes (j + 1 + i) = true := by
        intro i hi
        have h1 := hsucc (i + 1) (by omega)
        have : j + 1 + i = j + (i + 1) := by omega
        rw [this]
        exact h1
      have hfail' : writeRes (j + 1 + k) = false := by
        have : j + 1 + k = j + (k + 1) := by omega
        rw [this]
        exact hfail
      rw [announceDirect, if_pos hw,
        ih rest (j + 1) (by simpa using hk) hsucc' hfail']
      have hlen : rest.length + 1 - (k + 1 + 1) = rest.length - (k + 1) := by omega
      simp [hlen]

/-- C5 counterexample: with an empty backlog and a single chunk whose
write fails, `_announce` appends the chunk to the backlog but yields
nothing at all — no zero-count marker is yielded for the chunk whose
write failed. -/
theorem announce_failed_chunk_no_marker_cex :
    announceDirect (fun _ => false) 0 true [(1, [7])] = ([], [(1, [7])]) ∧
    (0 : Nat) ∉ (announceDirect (fun _ => false) 0 true [(1, [7])]).1 :=
  ⟨rfl, by decide⟩

/-- C5 (amended): when `_announce` starts with an empty backlog and the
`(k+1)`-th direct write fails, every chunk from the failing one onward
is appended to the backlog instead of being written; each chunk
successfully written directly yields its (positive) fragment count, a
zero count is yielded for each chunk deferred *after* the failed one,
and the chunk whose write failed is deferred without any yielded
marker. -/
theorem announce_defer_after_first_failure (writeRes : Nat → Bool)
    (generator : List (List Nat)) (size : Nat) (chunks : List (Nat × List Nat))
    (k : Nat) (hch : chunked generator size = .ok chunks)
    (hk : k < chunks.length)
    (hsucc : ∀ i, i < k → writeRes i = true)
    (hfail : writeRes k = false) :
    announceDirect writeRes 0 true chunks =
      ((chunks.take k).map Prod.fst ++ List.replicate (chunks.length - (k + 1)) 0,
        chunks.drop k) ∧
    ∀ c ∈ chunks, 0 < c.1 := by
  constructor
  · have h0 : ∀ i, i < k → writeRes (0 + i) = true := by
      intro i hi
      simpa using hsucc i hi
    have hf : writeRes (0 + k) = false := by simpa using hfail
    exact announceDirect_firstFail writeRes k chunks 0 hk h0 hf
  · exact chunkedGo_counts_pos size generator [] 0 chunks (by simp) hch

/-- Witness for C5 (amended): three one-fragment chunks, first write
succeeds, second fails: yields `[1, 0]`, defers the last two chunks. -/
theorem announce_defer_after_first_failure_witness :
    announceDirect (fun i => i == 0) 0 true [(1, [1]), (1, [2]), (1, [3])] =
      ([1, 0], [(1, [2]), (1, [3])]) ∧
    ∀ c ∈ ([(1, [1]), (1, [2]), (1, [3])] : List (Nat × List Nat)), 0 < c.1 := by
  have h := announce_defer_after_first_failure (fun i => i == 0) [[1], [2], [3]] 1
    [(1, [1]), (1, [2]), (1, [3])] 1 rfl (by decide)
    (fun i hi => by
      have h0 : i = 0 := by omega
      subst h0
      rfl)
    rfl
  refine ⟨?_, h.2⟩
  rw [h.1]
  decide
